import Mathlib

/-!
Verification of the Ragam Elyssia backend (Express + Drizzle consultation
booking service) against its natural-language specification.

The TypeScript source is shallowly embedded:
* request handlers become pure Lean functions from a request and a store to
  a new store and a response;
* the relational store becomes a `List` of records, `select ... where eq`
  becomes `List.find?`, and `update ... set` becomes a `List.map` touching
  only the matching rows (Drizzle skips columns whose value is `undefined`,
  which we model with `Option` for fields that may be absent from a patch
  body);
* JS truthiness tests on strings (`!email`) become emptiness tests;
* timestamps (`Date.now()`, `new Date()`) become integer milliseconds
  passed explicitly;
* `bcrypt` hashing is kept abstract (the hash and the verify routine are
  parameters), since its internals are outside the repository.
-/

/-- A JSON response whose body is `{success, message}` plus an HTTP status
(`res.json` without `res.status` defaults to 200). -/
structure ApiResponse where
  status : Nat
  success : Bool
  message : String
  deriving Repr, DecidableEq

/-- A user row of the `users` table (second, email/role schema version):
`passwordResetToken` and `passwordResetExpires` are nullable columns. -/
structure User where
  id : Nat
  fullName : String
  email : String
  passwordHash : String
  passwordResetToken : Option String
  passwordResetExpires : Option Int
  role : String
  deriving Repr, DecidableEq

/-- An admin row of the `admins` table. -/
structure Admin where
  id : Nat
  email : String
  passwordHash : String
  securityCode : String
  deriving Repr, DecidableEq

namespace Routes

/-- `POST /api/password-reset-request`.  Inputs: the `users` table, the
request body's `email`, the freshly generated random token
(`crypto.randomBytes(32).toString("hex")`), the current time, and whether
the Mailgun send fails.  The mail failure is caught and swallowed, so the
`mailFails` argument does not influence the result at all. -/
def passwordResetRequest (usersDb : List User) (email : String)
    (freshToken : String) (now : Int) (mailFails : Bool) :
    List User × ApiResponse :=
  if email = "" then
    (usersDb, ⟨400, false, "Email required"⟩)
  else
    match usersDb.find? (fun u => u.email = email) with
    | none => (usersDb, ⟨200, true, "If that email exists, a reset link will be sent."⟩)
    | some u =>
      let expires : Int := now + 1000 * 60 * 60
      let updated := usersDb.map fun v =>
        if v.id = u.id then
          { v with passwordResetToken := some freshToken,
                   passwordResetExpires := some expires }
        else v
      -- mg.messages.create is wrapped in try/catch; mailFails is ignored.
      (updated, ⟨200, true, "If that email exists, a reset link will be sent."⟩)

/-- `POST /api/password-reset`.  `newHash` stands for
`bcrypt.hash(newPassword, 10)`.  JS truthiness checks on the body fields and
on the stored token become emptiness/`Option` tests; `new Date(expires) <
new Date()` becomes `e < now`. -/
def passwordReset (usersDb : List User) (email token newPassword : String)
    (newHash : String) (now : Int) : List User × ApiResponse :=
  if email = "" ∨ token = "" ∨ newPassword = "" then
    (usersDb, ⟨400, false, "Missing required fields"⟩)
  else
    match usersDb.find? (fun u => u.email = email) with
    | none => (usersDb, ⟨400, false, "Invalid or expired token"⟩)
    | some u =>
      match u.passwordResetToken, u.passwordResetExpires with
      | some t, some e =>
        if t = "" then (usersDb, ⟨400, false, "Invalid or expired token"⟩)
        else if t ≠ token ∨ e < now then
          (usersDb, ⟨400, false, "Invalid or expired token"⟩)
        else
          (usersDb.map fun v =>
            if v.id = u.id then
              { v with passwordHash := newHash,
                       passwordResetToken := none,
                       passwordResetExpires := none }
            else v,
           ⟨200, true, "Password reset successful"⟩)
      | _, _ => (usersDb, ⟨400, false, "Invalid or expired token"⟩)

/-- Response of `POST /api/admin/login`: on success the handler signs a JWT
for `{adminId, email, isAdmin: true}`; we record the signed identity. -/
structure AdminLoginResponse where
  status : Nat
  success : Bool
  token : Option (Nat × String)
  deriving Repr, DecidableEq

/-- `POST /api/admin/login`.  `verify p h` stands for
`bcrypt.compare(p, h)`. -/
def adminLogin (verify : String → String → Bool) (adminsDb : List Admin)
    (email password securityCode : String) : AdminLoginResponse :=
  if email = "" ∨ password = "" ∨ securityCode = "" then
    ⟨400, false, none⟩
  else
    match adminsDb.find? (fun a => a.email = email) with
    | none => ⟨401, false, none⟩
    | some a =>
      if ¬ verify password a.passwordHash ∨ a.securityCode ≠ securityCode then
        ⟨401, false, none⟩
      else
        ⟨200, true, some (a.id, a.email)⟩

end Routes

/-- A consultation row of the `consultations` table (second schema version,
with `adminComment` and `userId`).  Nullable columns are `Option`s; `userId`
is null for anonymous submissions; `createdAt` is a millisecond timestamp. -/
structure Consultation where
  id : Nat
  name : String
  email : String
  phone : String
  eventType : String
  eventDate : String
  location : String
  budget : String
  details : Option String
  status : String
  adminComment : Option String
  scheduledDateTime : Option String
  paymentStatus : Option String
  paymentIntentId : Option String
  bookingId : Option String
  userId : Option Nat
  createdAt : Int
  deriving Repr, DecidableEq

namespace Routes

/-- A JSON response whose body is `{success, ..., consultation}`. -/
structure ConsultationResponse where
  status : Nat
  success : Bool
  consultation : Option Consultation
  deriving Repr, DecidableEq

/-- Body of `PATCH /api/admin/consultations/:id`.  `adminComment` is doubly
optional: the outer `Option` is presence in the request (Drizzle skips a
column set to `undefined`), the inner one distinguishes an explicit null
(clear the comment) from a string. -/
structure AdminConsultationPatch where
  status : Option String
  scheduledDateTime : Option String
  adminComment : Option (Option String)
  deriving Repr, DecidableEq

/-- The `.set({...})` object of the admin consultation update:
`status: status || "pending"` (any JS-falsy status, i.e. absent or empty,
falls back to `"pending"`), `scheduledDateTime: scheduledDateTime || null`,
and `adminComment` only when it was present in the request. -/
def applyAdminConsultationPatch (b : AdminConsultationPatch)
    (c : Consultation) : Consultation :=
  { c with
    status := match b.status with
      | some s => if s = "" then "pending" else s
      | none => "pending"
    scheduledDateTime := match b.scheduledDateTime with
      | some s => if s = "" then none else some s
      | none => none
    adminComment := match b.adminComment with
      | some v => v
      | none => c.adminComment }

/-- `PATCH /api/admin/consultations/:id`: update all rows whose `id`
matches, return the first updated row (`[updated]`), 404 when there is
none. -/
def adminUpdateConsultation (dbc : List Consultation) (id : Nat)
    (b : AdminConsultationPatch) : List Consultation × ConsultationResponse :=
  match dbc.find? (fun c => c.id = id) with
  | none => (dbc, ⟨404, false, none⟩)
  | some c =>
    (dbc.map fun r => if r.id = id then applyAdminConsultationPatch b r else r,
     ⟨200, true, some (applyAdminConsultationPatch b c)⟩)

/-- Body of `PATCH /api/my/consultations/:id`: the handler destructures
`eventType, eventDate, location, budget, details` from the body and passes
them to `.set`; Drizzle skips the ones that are `undefined`.  `details` is a
nullable column, so an explicit null is representable. -/
structure OwnerConsultationPatch where
  eventType : Option String
  eventDate : Option String
  location : Option String
  budget : Option String
  details : Option (Option String)
  deriving Repr, DecidableEq

/-- The `.set` object of the owner update: only the fields present in the
request body are written. -/
def applyOwnerConsultationPatch (b : OwnerConsultationPatch)
    (c : Consultation) : Consultation :=
  { c with
    eventType := b.eventType.getD c.eventType
    eventDate := b.eventDate.getD c.eventDate
    location := b.location.getD c.location
    budget := b.budget.getD c.budget
    details := b.details.getD c.details }

/-- All five patchable fields absent: Drizzle then has no values to set and
throws, which the handler's catch turns into a 500. -/
def OwnerConsultationPatch.isEmpty (b : OwnerConsultationPatch) : Bool :=
  b.eventType.isNone && b.eventDate.isNone && b.location.isNone &&
    b.budget.isNone && b.details.isNone

/-- `PATCH /api/my/consultations/:id` for the authenticated user
`callerId`: select the row; if it is absent or its `userId` differs from
the caller (`consultation.userId !== user.id`, false in particular whenever
`userId` is null) answer 403 without touching the store; otherwise write
the supplied descriptive fields. -/
def ownerUpdateConsultation (dbc : List Consultation) (callerId : Nat)
    (id : Nat) (b : OwnerConsultationPatch) :
    List Consultation × ConsultationResponse :=
  match dbc.find? (fun c => c.id = id) with
  | none => (dbc, ⟨403, false, none⟩)
  | some c =>
    if c.userId ≠ some callerId then (dbc, ⟨403, false, none⟩)
    else if b.isEmpty then (dbc, ⟨500, false, none⟩)
    else
      (dbc.map fun r => if r.id = id then applyOwnerConsultationPatch b r else r,
       ⟨200, true, some (applyOwnerConsultationPatch b c)⟩)

end Routes

namespace Storage

/-- A consultation row of the first schema version (the one `storage.ts`
imports: no `adminComment`, no `userId`). -/
structure Consultation where
  id : Nat
  name : String
  email : String
  phone : String
  eventType : String
  eventDate : String
  location : String
  budget : String
  details : Option String
  status : String
  scheduledDateTime : Option String
  paymentStatus : Option String
  paymentIntentId : Option String
  bookingId : Option String
  createdAt : Int
  deriving Repr, DecidableEq

/-- `InsertConsultation` = the insert schema: the consultation columns
minus id, status, scheduledDateTime, paymentStatus, paymentIntentId,
bookingId, createdAt. -/
structure InsertConsultation where
  name : String
  email : String
  phone : String
  eventType : String
  eventDate : String
  location : String
  budget : String
  details : Option String
  deriving Repr, DecidableEq

/-- The decimal digits of `n`, most significant first — JS `String(n)` for
a non-negative integer. -/
def decChars (n : Nat) : List Char :=
  if h : n < 10 then [Char.ofNat (48 + n)]
  else decChars (n / 10) ++ [Char.ofNat (48 + n % 10)]
decreasing_by exact Nat.div_lt_self (by omega) (by omega)

/-- JS `s.padStart(4, '0')` on the character list. -/
def padChars (cs : List Char) : List Char :=
  if 4 ≤ cs.length then cs else List.replicate (4 - cs.length) '0' ++ cs

/-- `` `RE2024-${String(id).padStart(4, '0')}` `` from
`MemStorage.createConsultation`. -/
def mkBookingId (n : Nat) : String :=
  "RE2024-" ++ String.mk (padChars (decChars n))

/-- A JS `Map` as an insertion-ordered association list. -/
abbrev JsMap (β : Type) := List (Nat × β)

/-- `Map.prototype.get`. -/
def jsMapGet {β : Type} (m : JsMap β) (k : Nat) : Option β :=
  (m.find? (fun p => p.1 = k)).map (fun p => p.2)

/-- `Map.prototype.set`: replace in place when the key is present (JS maps
keep insertion order), append otherwise. -/
def jsMapSet {β : Type} (m : JsMap β) (k : Nat) (v : β) : JsMap β :=
  if m.any (fun p => p.1 = k) then
    m.map (fun p => if p.1 = k then (k, v) else p)
  else m ++ [(k, v)]

end Storage

/-- The private fields of `MemStorage` that consultations touch. -/
structure MemState where
  consultations : Storage.JsMap Storage.Consultation
  currentConsultationId : Nat

namespace MemStorage

open Storage (jsMapGet jsMapSet mkBookingId InsertConsultation)

/-- `MemStorage.createConsultation`: take the next id (post-increment),
derive the booking id from it, fill in the lifecycle defaults
(`details: insertConsultation.details || null` maps a JS-falsy details to
null) and store the record under its id. -/
def createConsultation (s : MemState) (ins : InsertConsultation)
    (now : Int) : MemState × Storage.Consultation :=
  let id := s.currentConsultationId
  let c : Storage.Consultation := {
    id := id
    name := ins.name
    email := ins.email
    phone := ins.phone
    eventType := ins.eventType
    eventDate := ins.eventDate
    location := ins.location
    budget := ins.budget
    details := match ins.details with
      | some d => if d = "" then none else some d
      | none => none
    status := "pending"
    scheduledDateTime := none
    paymentStatus := some "unpaid"
    paymentIntentId := none
    bookingId := some (mkBookingId id)
    createdAt := now }
  ({ consultations := jsMapSet s.consultations id c,
     currentConsultationId := id + 1 }, c)

/-- `MemStorage.getConsultation`. -/
def getConsultation (s : MemState) (id : Nat) : Option Storage.Consultation :=
  jsMapGet s.consultations id

/-- `MemStorage.updateConsultationSchedule`; `none` models the thrown
`Error("Storage.Consultation not found")`.  Note it also forces
`status: "scheduled"`. -/
def updateConsultationSchedule (s : MemState) (id : Nat)
    (scheduledDateTime : String) : Option (MemState × Storage.Consultation) :=
  match jsMapGet s.consultations id with
  | none => none
  | some c =>
    let updated := { c with scheduledDateTime := some scheduledDateTime,
                            status := "scheduled" }
    some ({ s with consultations := jsMapSet s.consultations id updated },
          updated)

/-- `MemStorage.updateConsultationPayment`. -/
def updateConsultationPayment (s : MemState) (id : Nat)
    (paymentIntentId paymentStatus : String) :
    Option (MemState × Storage.Consultation) :=
  match jsMapGet s.consultations id with
  | none => none
  | some c =>
    let updated := { c with paymentIntentId := some paymentIntentId,
                            paymentStatus := some paymentStatus }
    some ({ s with consultations := jsMapSet s.consultations id updated },
          updated)

/-- `MemStorage.updateConsultationStatus`. -/
def updateConsultationStatus (s : MemState) (id : Nat) (status : String) :
    Option (MemState × Storage.Consultation) :=
  match jsMapGet s.consultations id with
  | none => none
  | some c =>
    let updated := { c with status := status }
    some ({ s with consultations := jsMapSet s.consultations id updated },
          updated)

end MemStorage

namespace DatabaseStorage

open Storage (InsertConsultation)

/-- `DatabaseStorage.updateConsultationSchedule`:
`update(consultations).set({ scheduledDateTime }).where(eq(id)).returning()`
touches only the `scheduledDateTime` column; `[consultation]` takes the
first returned row. -/
def updateConsultationSchedule (dbc : List Storage.Consultation) (id : Nat)
    (scheduledDateTime : String) : List Storage.Consultation × Option Storage.Consultation :=
  (dbc.map fun r =>
     if r.id = id then { r with scheduledDateTime := some scheduledDateTime }
     else r,
   (dbc.find? (fun r => r.id = id)).map fun r =>
     { r with scheduledDateTime := some scheduledDateTime })

/-- `DatabaseStorage.updateConsultationPayment`. -/
def updateConsultationPayment (dbc : List Storage.Consultation) (id : Nat)
    (paymentIntentId paymentStatus : String) :
    List Storage.Consultation × Option Storage.Consultation :=
  (dbc.map fun r =>
     if r.id = id then
       { r with paymentIntentId := some paymentIntentId,
                paymentStatus := some paymentStatus }
     else r,
   (dbc.find? (fun r => r.id = id)).map fun r =>
     { r with paymentIntentId := some paymentIntentId,
              paymentStatus := some paymentStatus })

/-- `DatabaseStorage.updateConsultationStatus`. -/
def updateConsultationStatus (dbc : List Storage.Consultation) (id : Nat)
    (status : String) : List Storage.Consultation × Option Storage.Consultation :=
  (dbc.map fun r => if r.id = id then { r with status := status } else r,
   (dbc.find? (fun r => r.id = id)).map fun r => { r with status := status })

end DatabaseStorage

namespace Jwt

/-!
The handlers issue tokens with `jwt.sign({userId, email} | {adminId, email,
isAdmin: true}, JWT_SECRET, {expiresIn: "7d"})` and check them with
`jwt.verify(token, JWT_SECRET)`.  The `jsonwebtoken` library itself is not
part of this repository, so its signing/verification is modelled
symbolically from the spec.
-/

/-- Modelled from the spec: the decoded claims of an auth bearer token —
"encodes principal id, email, and a discriminator flag identifying admin
tokens" (user tokens carry `userId`/`email`, admin tokens
`adminId`/`email`/`isAdmin: true`). -/
structure Claims where
  principalId : Nat
  email : String
  isAdmin : Bool
  deriving Repr, DecidableEq

/-- Modelled from the spec: a symbolic MAC over the signed payload — a
signature is valid exactly when it was produced over this payload with
this secret (the cryptography itself is outside the repository). -/
structure Signature where
  secret : String
  signedClaims : Claims
  signedExp : Int
  deriving Repr, DecidableEq

/-- Modelled from the spec: signing the payload with the server secret. -/
def macSign (secret : String) (c : Claims) (exp : Int) : Signature :=
  ⟨secret, c, exp⟩

/-- A signed token: payload (claims + expiry) plus signature. -/
structure SignedToken where
  claims : Claims
  exp : Int
  sig : Signature
  deriving Repr, DecidableEq

/-- `"7d"` in milliseconds. -/
def sevenDays : Int := 7 * 24 * 60 * 60 * 1000

/-- Modelled from the spec: `issueToken` — "signed with a server secret;
expires 7 days from issuance" (`jwt.sign(..., {expiresIn: "7d"})`). -/
def issueToken (secret : String) (c : Claims) (now : Int) : SignedToken :=
  { claims := c, exp := now + sevenDays, sig := macSign secret c (now + sevenDays) }

/-- Modelled from the spec: `verifyToken` — "fails on bad signature,
malformed payload, or expiry"; per RFC 7519 a token is rejected once the
clock reaches `exp`. -/
def verifyToken (secret : String) (t : SignedToken) (now : Int) : Option Claims :=
  if t.sig = macSign secret t.claims t.exp ∧ now < t.exp then some t.claims
  else none

end Jwt

namespace Storage

/-- Numeric value of a decimal digit character. -/
def digitVal (c : Char) : Nat := c.toNat - 48

/-- Reading a digit string back as a number (accumulator form), the left
inverse used to show booking ids are injective in the record id. -/
def valChars (a : Nat) (cs : List Char) : Nat :=
  cs.foldl (fun x c => x * 10 + digitVal c) a

end Storage

/-- The reachability invariant of `MemStorage`'s consultation map: every
entry is keyed by its record's id, ids are below the allocation counter and
pairwise distinct, and every stored booking id is the one generated from
the record's id at creation. -/
def MemInv (s : MemState) : Prop :=
  (∀ p ∈ s.consultations,
      p.1 = p.2.id ∧ p.2.id < s.currentConsultationId ∧
        p.2.bookingId = some (Storage.mkBookingId p.2.id)) ∧
    (s.consultations.map fun p => p.1).Nodup

/-! ## Concrete fixtures for witnesses and counterexamples -/

/-- A sample hash-verify routine for witnesses: `h` verifies against `p`
when it is `"H:" ++ p`. -/
def verifySample : String → String → Bool := fun p h => h == "H:" ++ p

/-- A sample admin row. -/
def adminSample : Admin := ⟨1, "a@x.com", "H:pw", "1234"⟩

/-- A sample user row holding an unexpired reset token at time 1000. -/
def userSample : User := ⟨1, "Ann", "a@x.com", "H:old", some "tok", some 1000, "user"⟩

/-- A sample consultation submitted anonymously (`userId` null). -/
def consultationAnon : Consultation :=
  ⟨1, "N", "e@x.com", "123", "Wedding", "2025-01-01", "L", "B", none,
    "pending", none, none, some "unpaid", none, some "RGM-1", none, 0⟩

/-- A sample consultation owned by user 7. -/
def consultationOwned : Consultation :=
  ⟨2, "M", "m@x.com", "456", "Gala", "2025-02-02", "L2", "B2", none,
    "pending", none, none, some "unpaid", none, some "RGM-2", some 7, 0⟩

/-- A sample consultation that an admin has scheduled and annotated. -/
def consultationScheduled : Consultation :=
  ⟨3, "P", "p@x.com", "789", "Launch", "2025-03-03", "L3", "B3", none,
    "scheduled", some "call first", some "2025-03-01T10:00", some "unpaid",
    none, some "RGM-3", some 7, 0⟩

/-- A sample first-schema consultation as stored by `MemStorage`. -/
def consultationStored : Storage.Consultation :=
  ⟨1, "N", "e@x.com", "123", "Wedding", "2025-01-01", "L", "B", none,
    "pending", none, some "unpaid", none, some "RE2024-0001", 0⟩

/-- A sample insert payload for `createConsultation`. -/
def insertSample : Storage.InsertConsultation :=
  ⟨"N", "e@x.com", "123", "Wedding", "2025-01-01", "L", "B", none⟩

/-! ## Shared lemmas -/

theorem find?_congr_mem {α : Type} {p q : α → Bool} :
    ∀ l : List α, (∀ x ∈ l, p x = q x) → l.find? p = l.find? q := by
  intro l
  induction l with
  | nil => intro _; rfl
  | cons a t ih =>
    intro h
    simp only [List.find?_cons]
    rw [h a (List.mem_cons_self a t)]
    cases q a with
    | true => rfl
    | false => exact ih (fun x hx => h x (List.mem_cons_of_mem a hx))

theorem find?_map_invariant {α : Type} (l : List α) (g : α → α) (p : α → Bool)
    (h : ∀ x, p (g x) = p x) : (l.map g).find? p = (l.find? p).map g := by
  rw [List.find?_map]
  have hpg : p ∘ g = p := funext h
  rw [hpg]

/-! ## Theorems for the claims -/

/-- C5: `POST /api/password-reset-request` with an email supplied answers
`{success: true}` with an identical body whether or not a user with that
email exists, for any store and any notifier outcome, so the response
never reveals account existence. -/
theorem passwordResetRequest_uniform_response (usersDb : List User)
    (email freshToken : String) (now : Int) (mailFails : Bool)
    (h : email ≠ "") :
    (Routes.passwordResetRequest usersDb email freshToken now mailFails).2 =
      ⟨200, true, "If that email exists, a reset link will be sent."⟩ := by
  unfold Routes.passwordResetRequest
  rw [if_neg h]
  cases usersDb.find? (fun u => u.email = email) <;> rfl

/-- Witness for C5: a concrete request on an empty store. -/
theorem passwordResetRequest_uniform_response_witness :
    ("a@x.com" : String) ≠ "" ∧
      (Routes.passwordResetRequest [] "a@x.com" "tok" 0 true).2 =
        ⟨200, true, "If that email exists, a reset link will be sent."⟩ :=
  ⟨by decide, passwordResetRequest_uniform_response [] "a@x.com" "tok" 0 true
    (by decide)⟩

/-- C6: `POST /api/admin/login` with all three fields supplied succeeds
(200, with a token) exactly when some stored admin has that email, the
password verifies against its hash, and the security code matches exactly;
any failed conjunct answers 401 with no token. -/
theorem adminLogin_success_iff (verify : String → String → Bool)
    (adminsDb : List Admin) (email password securityCode : String)
    (hE : email ≠ "") (hP : password ≠ "") (hC : securityCode ≠ "")
    (hU : adminsDb.Pairwise (fun a b => a.email ≠ b.email)) :
    (((Routes.adminLogin verify adminsDb email password securityCode).status = 200 ∧
        (Routes.adminLogin verify adminsDb email password securityCode).token.isSome = true) ↔
      ∃ a ∈ adminsDb, a.email = email ∧ verify password a.passwordHash = true ∧
        a.securityCode = securityCode) ∧
    ((Routes.adminLogin verify adminsDb email password securityCode).status ≠ 200 →
      (Routes.adminLogin verify adminsDb email password securityCode).status = 401 ∧
      (Routes.adminLogin verify adminsDb email password securityCode).token = none) := by
  have hcond : ¬(email = "" ∨ password = "" ∨ securityCode = "") := by
    simp [hE, hP, hC]
  unfold Routes.adminLogin
  rw [if_neg hcond]
  split
  next hf =>
    refine ⟨⟨fun h => ?_, ?_⟩, fun _ => ⟨rfl, rfl⟩⟩
    · simp at h
    · rintro ⟨a, ha, hae, -, -⟩
      have := List.find?_eq_none.mp hf a ha
      simp [hae] at this
  next a hf =>
    have hmem : a ∈ adminsDb := List.mem_of_find?_eq_some hf
    have hae : a.email = email := by
      have := List.find?_some hf
      simpa using this
    have huniq : ∀ b ∈ adminsDb, b.email = email → b = a := by
      intro b hb hbe
      by_contra hne
      exact (List.Pairwise.forall (fun x y hxy => hxy.symm) hU hb hmem hne)
        (hbe.trans hae.symm)
    by_cases hv : verify password a.passwordHash
    · by_cases hsc : a.securityCode = securityCode
      · rw [if_neg (by simp [hv, hsc])]
        exact ⟨⟨fun _ => ⟨a, hmem, hae, by simp [hv], hsc⟩, fun _ => ⟨rfl, rfl⟩⟩,
          fun h => absurd rfl h⟩
      · rw [if_pos (Or.inr hsc)]
        refine ⟨⟨fun h => ?_, ?_⟩, fun _ => ⟨rfl, rfl⟩⟩
        · simp at h
        · rintro ⟨b, hb, hbe, -, hbsc⟩
          exact absurd (huniq b hb hbe ▸ hbsc : a.securityCode = securityCode) hsc
    · rw [if_pos (Or.inl (by simpa using hv))]
      refine ⟨⟨fun h => ?_, ?_⟩, fun _ => ⟨rfl, rfl⟩⟩
      · simp at h
      · rintro ⟨b, hb, hbe, hbv, -⟩
        exact absurd (by rw [huniq b hb hbe] at hbv; simpa using hbv) hv

/-- Witness for C6: a concrete one-admin store where all three checks pass,
so login succeeds with a token. -/
theorem adminLogin_success_iff_witness :
    (("a@x.com" : String) ≠ "" ∧ ("pw" : String) ≠ "" ∧ ("1234" : String) ≠ "" ∧
      ([adminSample] : List Admin).Pairwise (fun a b => a.email ≠ b.email)) ∧
    ((Routes.adminLogin verifySample [adminSample] "a@x.com" "pw" "1234").status = 200 ∧
      (Routes.adminLogin verifySample [adminSample] "a@x.com" "pw" "1234").token.isSome =
        true) :=
  ⟨⟨by decide, by decide, by decide, by simp⟩,
   (adminLogin_success_iff verifySample [adminSample] "a@x.com" "pw" "1234"
      (by decide) (by decide) (by decide) (by simp)).1.mpr
     ⟨adminSample, by simp, by decide, by decide, by decide⟩⟩

/-- C10: a consultation stored with a null `userId` (anonymous submission)
can never be edited through `PATCH /api/my/consultations/:id`: for every
authenticated caller the handler answers 403 and leaves the store
unchanged. -/
theorem ownerUpdateConsultation_anonymous_forbidden (dbc : List Consultation)
    (callerId id : Nat) (b : Routes.OwnerConsultationPatch) (c : Consultation)
    (hfind : dbc.find? (fun r => r.id = id) = some c) (hanon : c.userId = none) :
    Routes.ownerUpdateConsultation dbc callerId id b = (dbc, ⟨403, false, none⟩) := by
  unfold Routes.ownerUpdateConsultation
  rw [hfind]
  simp [hanon]

/-- Witness for C10: a concrete anonymous consultation, concrete caller. -/
theorem ownerUpdateConsultation_anonymous_forbidden_witness :
    (([consultationAnon].find? (fun r => r.id = 1) = some consultationAnon) ∧
      consultationAnon.userId = none) ∧
    Routes.ownerUpdateConsultation [consultationAnon] 42 1
        ⟨some "Gala", none, none, none, none⟩ =
      ([consultationAnon], ⟨403, false, none⟩) :=
  ⟨⟨by simp [consultationAnon], rfl⟩,
   ownerUpdateConsultation_anonymous_forbidden [consultationAnon] 42 1
     ⟨some "Gala", none, none, none, none⟩ consultationAnon
     (by simp [consultationAnon]) rfl⟩

/-- C1 counterexample: when no consultation has the requested id,
`PATCH /api/my/consultations/:id` answers 403 (Forbidden), not NotFound
(404) as the claim states. -/
theorem ownerUpdateConsultation_absent_counterexample :
    (Routes.ownerUpdateConsultation [] 1 1
        ⟨some "Gala", none, none, none, none⟩).2.status = 403 ∧
      (Routes.ownerUpdateConsultation [] 1 1
        ⟨some "Gala", none, none, none, none⟩).2.status ≠ 404 := by
  exact ⟨rfl, by decide⟩

/-- C1 (amended): the owner update answers 403 and leaves the store
unchanged both when the id is absent and when the caller does not own the
record; it never changes any row's status, paymentStatus or bookingId; and
the patch it applies on success preserves those fields together with the
record id. -/
theorem ownerUpdateConsultation_access_control (dbc : List Consultation)
    (callerId id : Nat) (b : Routes.OwnerConsultationPatch) :
    (dbc.find? (fun r => r.id = id) = none →
      Routes.ownerUpdateConsultation dbc callerId id b =
        (dbc, ⟨403, false, none⟩)) ∧
    (∀ c, dbc.find? (fun r => r.id = id) = some c → c.userId ≠ some callerId →
      Routes.ownerUpdateConsultation dbc callerId id b =
        (dbc, ⟨403, false, none⟩)) ∧
    ((Routes.ownerUpdateConsultation dbc callerId id b).1.map
        (fun r => (r.id, r.status, r.paymentStatus, r.bookingId)) =
      dbc.map (fun r => (r.id, r.status, r.paymentStatus, r.bookingId))) ∧
    (∀ (b' : Routes.OwnerConsultationPatch) (c : Consultation),
      (Routes.applyOwnerConsultationPatch b' c).id = c.id ∧
      (Routes.applyOwnerConsultationPatch b' c).status = c.status ∧
      (Routes.applyOwnerConsultationPatch b' c).paymentStatus = c.paymentStatus ∧
      (Routes.applyOwnerConsultationPatch b' c).bookingId = c.bookingId) := by
  refine ⟨?_, ?_, ?_, fun b' c => ⟨rfl, rfl, rfl, rfl⟩⟩
  · intro h
    unfold Routes.ownerUpdateConsultation
    rw [h]
  · intro c hf hne
    unfold Routes.ownerUpdateConsultation
    rw [hf]
    simp [hne]
  · unfold Routes.ownerUpdateConsultation
    split
    · rfl
    · split
      · rfl
      · split
        · rfl
        · rw [List.map_map]
          congr 1
          funext r
          by_cases hr : r.id = id <;>
            simp [hr, Routes.applyOwnerConsultationPatch]

/-- Witness for C1 (amended): on the empty store the absent-id branch
answers 403 with the store unchanged. -/
theorem ownerUpdateConsultation_access_control_witness :
    (([] : List Consultation).find? (fun r => r.id = 1) = none) ∧
      Routes.ownerUpdateConsultation [] 1 1
          ⟨some "Gala", none, none, none, none⟩ =
        ([], ⟨403, false, none⟩) :=
  ⟨rfl, (ownerUpdateConsultation_access_control [] 1 1
    ⟨some "Gala", none, none, none, none⟩).1 rfl⟩

/-- C2: `PATCH /api/admin/consultations/:id` with an empty body resets the
record's status to "pending" and its scheduledDateTime to null, answers 404
when the id is absent, never changes any stored adminComment when the field
is absent from the request, and in general writes adminComment exactly when
it is present in the request (including an explicit null). -/
theorem adminUpdateConsultation_empty_body (dbc : List Consultation)
    (id : Nat) :
    (dbc.find? (fun r => r.id = id) = none →
      Routes.adminUpdateConsultation dbc id ⟨none, none, none⟩ =
        (dbc, ⟨404, false, none⟩)) ∧
    (∀ c, dbc.find? (fun r => r.id = id) = some c →
      (Routes.adminUpdateConsultation dbc id ⟨none, none, none⟩).2 =
        ⟨200, true, some { c with status := "pending",
                                  scheduledDateTime := none }⟩) ∧
    ((Routes.adminUpdateConsultation dbc id ⟨none, none, none⟩).1.map
        (fun r => r.adminComment) = dbc.map (fun r => r.adminComment)) ∧
    (∀ (b : Routes.AdminConsultationPatch) (c : Consultation),
      (Routes.applyAdminConsultationPatch b c).adminComment =
        b.adminComment.getD c.adminComment) := by
  refine ⟨?_, ?_, ?_, ?_⟩
  · intro h
    unfold Routes.adminUpdateConsultation
    rw [h]
  · intro c hf
    unfold Routes.adminUpdateConsultation
    rw [hf]
    rfl
  · unfold Routes.adminUpdateConsultation
    split
    · rfl
    · rw [List.map_map]
      congr 1
      funext r
      by_cases hr : r.id = id <;>
        simp [hr, Routes.applyAdminConsultationPatch]
  · intro b c
    obtain ⟨bs, bsd, bac⟩ := b
    cases bac <;> rfl

/-- Witness for C2: an admin-scheduled, annotated record patched with `{}`
goes back to pending with a null schedule and keeps its comment. -/
theorem adminUpdateConsultation_empty_body_witness :
    ([consultationScheduled].find? (fun r => r.id = 3) =
        some consultationScheduled) ∧
      (Routes.adminUpdateConsultation [consultationScheduled] 3
          ⟨none, none, none⟩).2 =
        ⟨200, true, some { consultationScheduled with
                            status := "pending",
                            scheduledDateTime := none }⟩ :=
  ⟨by simp [consultationScheduled],
   (adminUpdateConsultation_empty_body [consultationScheduled] 3).2.1
     consultationScheduled (by simp [consultationScheduled])⟩

/-- C3 counterexample: at the instant the clock equals the stored expiry
the reset still succeeds (the code rejects only when `expiry < now`),
contradicting "now strictly less than the stored expiry" with "at the
instant now equals the stored expiry the token is invalid". -/
theorem passwordReset_at_expiry_counterexample :
    userSample.passwordResetExpires = some 1000 ∧
      (Routes.passwordReset [userSample] "a@x.com" "tok" "newpw" "H:newpw"
        1000).2.success = true ∧
      ¬((1000 : Int) < 1000) := by
  exact ⟨rfl, rfl, by decide⟩

/-- C3 (amended): with the three body fields supplied and a user found for
the email, `POST /api/password-reset` proceeds iff the supplied token
equals the stored one and now ≤ stored expiry; in particular at
now = expiry the token is still valid. -/
theorem passwordReset_validity (usersDb : List User)
    (email token newPassword newHash : String) (now : Int) (u : User)
    (hE : email ≠ "") (hT : token ≠ "") (hN : newPassword ≠ "")
    (hfind : usersDb.find? (fun v => v.email = email) = some u) :
    (Routes.passwordReset usersDb email token newPassword newHash
        now).2.success = true ↔
      u.passwordResetToken = some token ∧
        ∃ e, u.passwordResetExpires = some e ∧ now ≤ e := by
  have hcond : ¬(email = "" ∨ token = "" ∨ newPassword = "") := by
    simp [hE, hT, hN]
  unfold Routes.passwordReset
  rw [if_neg hcond]
  rcases htok : u.passwordResetToken with _ | t
  · rcases hexp : u.passwordResetExpires with _ | e <;>
      simp [hfind, htok, hexp]
  · rcases hexp : u.passwordResetExpires with _ | e
    · simp [hfind, htok, hexp]
    · by_cases hte : t = token
      · subst hte
        by_cases hlt : e < now
        · simp [hfind, htok, hexp, hT, hlt]
        · simp [hfind, htok, hexp, hT, hlt]
          omega
      · by_cases ht0 : t = ""
        · simp [hfind, htok, hexp, ht0, hte]
          exact fun h => absurd h.symm hT
        · simp [hfind, htok, hexp, ht0, hte]

/-- Witness for C3 (amended): with the sample user's token supplied before
expiry, the reset succeeds. -/
theorem passwordReset_validity_witness :
    (("a@x.com" : String) ≠ "" ∧ ("tok" : String) ≠ "" ∧
      ("newpw" : String) ≠ "" ∧
      [userSample].find? (fun v => v.email = "a@x.com") = some userSample) ∧
    (Routes.passwordReset [userSample] "a@x.com" "tok" "newpw" "H:newpw"
        500).2.success = true :=
  ⟨⟨by decide, by decide, by decide, by simp [userSample]⟩,
   (passwordReset_validity [userSample] "a@x.com" "tok" "newpw" "H:newpw" 500
      userSample (by decide) (by decide) (by decide)
      (by simp [userSample])).mpr ⟨rfl, 1000, rfl, by decide⟩⟩

/-- C4: a successful `POST /api/password-reset` clears both the stored
reset token and the reset expiry of the resetting user, so replaying the
same (email, token) pair fails with 400 invalid/expired; and both
password-reset operations preserve the invariant that a user's reset token
and reset expiry are either both set or both cleared. -/
theorem passwordReset_single_use (usersDb : List User)
    (email token newPassword newPassword2 newHash newHash2 freshToken : String)
    (now now2 : Int) (mailFails : Bool) :
    ((Routes.passwordReset usersDb email token newPassword newHash
        now).2.success = true →
      newPassword2 ≠ "" →
      (Routes.passwordReset
          (Routes.passwordReset usersDb email token newPassword newHash now).1
          email token newPassword2 newHash2 now2).2 =
        ⟨400, false, "Invalid or expired token"⟩) ∧
    (∀ u, usersDb.find? (fun v => v.email = email) = some u →
      (Routes.passwordReset usersDb email token newPassword newHash
          now).2.success = true →
      ∀ v ∈ (Routes.passwordReset usersDb email token newPassword newHash
          now).1,
        v.id = u.id → v.passwordResetToken = none ∧
          v.passwordResetExpires = none) ∧
    ((∀ v ∈ usersDb, v.passwordResetToken.isSome ↔
        v.passwordResetExpires.isSome) →
      (∀ v ∈ (Routes.passwordReset usersDb email token newPassword newHash
          now).1,
        v.passwordResetToken.isSome ↔ v.passwordResetExpires.isSome) ∧
      (∀ v ∈ (Routes.passwordResetRequest usersDb email freshToken now
          mailFails).1,
        v.passwordResetToken.isSome ↔ v.passwordResetExpires.isSome)) := by
  have key : (Routes.passwordReset usersDb email token newPassword newHash
      now).2.success = true →
      email ≠ "" ∧ token ≠ "" ∧ newPassword ≠ "" ∧
      ∃ u, usersDb.find? (fun v => v.email = email) = some u ∧
        (Routes.passwordReset usersDb email token newPassword newHash now).1 =
          usersDb.map (fun v =>
            if v.id = u.id then
              { v with passwordHash := newHash, passwordResetToken := none,
                       passwordResetExpires := none }
            else v) := by
    unfold Routes.passwordReset
    split
    next hguard => intro h; simp at h
    next hguard =>
      push_neg at hguard
      split
      next heq => intro h; simp at h
      next u' heq =>
        split
        next t e htok hexp =>
          split
          next ht0 => intro h; simp at h
          next ht0 =>
            split
            next hrej => intro h; simp at h
            next hrej =>
              intro _
              exact ⟨hguard.1, hguard.2.1, hguard.2.2, u', heq, rfl⟩
        next hcat => intro h; simp at h
  have fpres : ∀ (g : User → User), (∀ x, (g x).email = x.email) →
      (usersDb.map g).find? (fun v => v.email = email) =
        (usersDb.find? (fun v => v.email = email)).map g := by
    intro g hg
    exact find?_map_invariant usersDb g _ (fun x => by simp [hg x])
  refine ⟨?_, ?_, ?_⟩
  · intro hsucc hN2
    obtain ⟨hE, hT, -, u, hfind, hstore⟩ := key hsucc
    rw [hstore]
    have hfind2 :
        (usersDb.map (fun v =>
            if v.id = u.id then
              { v with passwordHash := newHash, passwordResetToken := none,
                       passwordResetExpires := none }
            else v)).find? (fun v => v.email = email) =
          some { u with passwordHash := newHash, passwordResetToken := none,
                        passwordResetExpires := none } := by
      rw [fpres _ (fun x => by by_cases hx : x.id = u.id <;> simp [hx]), hfind]
      simp
    unfold Routes.passwordReset
    rw [if_neg (by simp [hE, hT, hN2]), hfind2]
  · intro u hfind hsucc v hv hvid
    obtain ⟨-, -, -, u', hfind', hstore⟩ := key hsucc
    rw [hfind] at hfind'
    injection hfind' with hu
    subst hu
    rw [hstore] at hv
    obtain ⟨x, hx, rfl⟩ := List.mem_map.mp hv
    by_cases hxid : x.id = u.id
    · simp [hxid]
    · rw [if_neg hxid] at hvid ⊢
      exact absurd hvid hxid
  · intro hinv
    constructor
    · have hshape : (Routes.passwordReset usersDb email token newPassword
          newHash now).1 = usersDb ∨
          ∃ u : User, (Routes.passwordReset usersDb email token newPassword
            newHash now).1 =
            usersDb.map (fun v =>
              if v.id = u.id then
                { v with passwordHash := newHash, passwordResetToken := none,
                         passwordResetExpires := none }
              else v) := by
        unfold Routes.passwordReset
        split
        · exact Or.inl rfl
        split
        · exact Or.inl rfl
        next u' heq =>
          split
          next t e htok hexp =>
            split
            · exact Or.inl rfl
            split
            · exact Or.inl rfl
            · exact Or.inr ⟨u', rfl⟩
          next hcat => exact Or.inl rfl
      rcases hshape with h | ⟨u, h⟩ <;> rw [h]
      · exact hinv
      · intro v hv
        obtain ⟨x, hx, rfl⟩ := List.mem_map.mp hv
        by_cases hxid : x.id = u.id
        · simp [hxid]
        · simpa [hxid] using hinv x hx
    · have hshape : (Routes.passwordResetRequest usersDb email freshToken now
          mailFails).1 = usersDb ∨
          ∃ u : User, (Routes.passwordResetRequest usersDb email freshToken
            now mailFails).1 =
            usersDb.map (fun v =>
              if v.id = u.id then
                { v with passwordResetToken := some freshToken,
                         passwordResetExpires := some (now + 1000 * 60 * 60) }
              else v) := by
        unfold Routes.passwordResetRequest
        split
        · exact Or.inl rfl
        split
        · exact Or.inl rfl
        next u' heq => exact Or.inr ⟨u', rfl⟩
      rcases hshape with h | ⟨u, h⟩ <;> rw [h]
      · exact hinv
      · intro v hv
        obtain ⟨x, hx, rfl⟩ := List.mem_map.mp hv
        by_cases hxid : x.id = u.id
        · simp [hxid]
        · simpa [hxid] using hinv x hx

/-- Witness for C4: resetting with the sample user's valid token, then
replaying the same (email, token) pair, fails the second time with 400
invalid/expired. -/
theorem passwordReset_single_use_witness :
    ((Routes.passwordReset [userSample] "a@x.com" "tok" "newpw" "H:newpw"
        500).2.success = true ∧ ("other" : String) ≠ "") ∧
      (Routes.passwordReset
          (Routes.passwordReset [userSample] "a@x.com" "tok" "newpw" "H:newpw"
            500).1
          "a@x.com" "tok" "other" "H:other" 500).2 =
        ⟨400, false, "Invalid or expired token"⟩ :=
  ⟨⟨rfl, by decide⟩,
   (passwordReset_single_use [userSample] "a@x.com" "tok" "newpw" "other"
      "H:newpw" "H:other" "t2" 500 500 false).1 rfl (by decide)⟩

/-- C8: a token issued by `issueToken` verifies within 7 days of issuance
to exactly the original principal id, email, and admin discriminator;
verification fails once 7 days have passed, and fails on any token whose
signature differs from the one produced at signing. -/
theorem jwt_issue_verify_roundtrip (secret : String) (c : Jwt.Claims)
    (now t : Int) :
    (t < now + Jwt.sevenDays →
      Jwt.verifyToken secret (Jwt.issueToken secret c now) t = some c) ∧
    (now + Jwt.sevenDays ≤ t →
      Jwt.verifyToken secret (Jwt.issueToken secret c now) t = none) ∧
    (∀ sig : Jwt.Signature, sig ≠ (Jwt.issueToken secret c now).sig →
      Jwt.verifyToken secret ⟨c, now + Jwt.sevenDays, sig⟩ t = none) := by
  refine ⟨?_, ?_, ?_⟩
  · intro h
    unfold Jwt.verifyToken Jwt.issueToken
    rw [if_pos ⟨rfl, h⟩]
  · intro h
    unfold Jwt.verifyToken Jwt.issueToken
    exact if_neg (fun hc => absurd hc.2 (not_lt.mpr h))
  · intro sig hsig
    unfold Jwt.verifyToken
    exact if_neg (fun hc => hsig hc.1)

/-- Witness for C8: a concrete token verified 5 ms after issuance yields
the original claims. -/
theorem jwt_issue_verify_roundtrip_witness :
    ((5 : Int) < 0 + Jwt.sevenDays) ∧
      Jwt.verifyToken "s" (Jwt.issueToken "s" ⟨1, "a@x.com", false⟩ 0) 5 =
        some ⟨1, "a@x.com", false⟩ :=
  ⟨by decide,
   (jwt_issue_verify_roundtrip "s" ⟨1, "a@x.com", false⟩ 0 5).1 (by decide)⟩

theorem digitVal_ofNat (d : Nat) (h : d < 10) :
    Storage.digitVal (Char.ofNat (48 + d)) = d := by
  interval_cases d <;> decide

theorem valChars_append (a : Nat) (xs ys : List Char) :
    Storage.valChars a (xs ++ ys) =
      Storage.valChars (Storage.valChars a xs) ys :=
  List.foldl_append _ _ _ _

theorem valChars_decChars (n : Nat) : ∀ a : Nat,
    Storage.valChars a (Storage.decChars n) =
      a * 10 ^ (Storage.decChars n).length + n := by
  induction n using Nat.strong_induction_on with
  | _ n ih =>
    intro a
    by_cases h : n < 10
    · rw [Storage.decChars, dif_pos h]
      have hv : Storage.valChars a [Char.ofNat (48 + n)] =
          a * 10 + Storage.digitVal (Char.ofNat (48 + n)) := rfl
      rw [hv, digitVal_ofNat n h]
      simp
    · rw [Storage.decChars, dif_neg h]
      rw [valChars_append]
      have h10 : n / 10 < n := Nat.div_lt_self (by omega) (by omega)
      rw [ih (n / 10) h10 a]
      have hm : n % 10 < 10 := Nat.mod_lt _ (by omega)
      have hv : Storage.valChars
          (a * 10 ^ (Storage.decChars (n / 10)).length + n / 10)
          [Char.ofNat (48 + n % 10)] =
          (a * 10 ^ (Storage.decChars (n / 10)).length + n / 10) * 10 +
            Storage.digitVal (Char.ofNat (48 + n % 10)) := rfl
      rw [hv, digitVal_ofNat _ hm, List.length_append]
      have hlen : [Char.ofNat (48 + n % 10)].length = 1 := rfl
      rw [hlen, pow_succ]
      have hassoc : a * (10 ^ (Storage.decChars (n / 10)).length * 10) =
          a * 10 ^ (Storage.decChars (n / 10)).length * 10 := by ring
      rw [hassoc]
      generalize a * 10 ^ (Storage.decChars (n / 10)).length = m
      omega

theorem valChars_replicate_zero (k : Nat) (cs : List Char) :
    Storage.valChars 0 (List.replicate k '0' ++ cs) =
      Storage.valChars 0 cs := by
  induction k with
  | zero => rfl
  | succ k ih =>
    rw [List.replicate_succ, List.cons_append]
    have hv : Storage.valChars 0 ('0' :: (List.replicate k '0' ++ cs)) =
        Storage.valChars (0 * 10 + Storage.digitVal '0')
          (List.replicate k '0' ++ cs) := rfl
    rw [hv]
    have h0 : (0 : Nat) * 10 + Storage.digitVal '0' = 0 := rfl
    rw [h0]
    exact ih

theorem valChars_padChars (cs : List Char) :
    Storage.valChars 0 (Storage.padChars cs) = Storage.valChars 0 cs := by
  unfold Storage.padChars
  split
  · rfl
  · exact valChars_replicate_zero _ _

theorem valChars_decChars_zero (n : Nat) :
    Storage.valChars 0 (Storage.decChars n) = n := by
  rw [valChars_decChars n 0]
  simp

theorem mkBookingId_inj {a b : Nat}
    (h : Storage.mkBookingId a = Storage.mkBookingId b) : a = b := by
  unfold Storage.mkBookingId at h
  have hdata := congrArg String.data h
  rw [String.data_append, String.data_append] at hdata
  have hmk : ∀ cs : List Char, (String.mk cs).data = cs := fun _ => rfl
  rw [hmk, hmk] at hdata
  have hx := List.append_cancel_left hdata
  have hval := congrArg (Storage.valChars 0) hx
  rw [valChars_padChars, valChars_padChars, valChars_decChars_zero,
    valChars_decChars_zero] at hval
  exact hval

theorem mkBookingId_ne_empty (n : Nat) : Storage.mkBookingId n ≠ "" := by
  intro h
  unfold Storage.mkBookingId at h
  have hlen := congrArg String.length h
  rw [String.length_append] at hlen
  have h7 : ("RE2024-" : String).length = 7 := rfl
  have h0 : ("" : String).length = 0 := rfl
  omega

theorem jsMapGet_some_elim {β : Type} (m : Storage.JsMap β) (id : Nat)
    (c : β) (hget : Storage.jsMapGet m id = some c) :
    ∃ p0, m.find? (fun p => p.1 = id) = some p0 ∧ p0.2 = c ∧ p0.1 = id ∧
      p0 ∈ m := by
  unfold Storage.jsMapGet at hget
  cases hf : m.find? (fun p => p.1 = id) with
  | none => rw [hf] at hget; simp at hget
  | some p =>
    rw [hf] at hget
    refine ⟨p, rfl, by simpa using hget, ?_, List.mem_of_find?_eq_some hf⟩
    simpa using List.find?_some hf

theorem jsMapGet_jsMapSet {β : Type} (m : Storage.JsMap β) (id : Nat)
    (c v : β) (hget : Storage.jsMapGet m id = some c) (k : Nat) :
    Storage.jsMapGet (Storage.jsMapSet m id v) k =
      if k = id then some v else Storage.jsMapGet m k := by
  obtain ⟨p0, hp0, hps, hk0, hmem0⟩ := jsMapGet_some_elim m id c hget
  have hany : m.any (fun p => p.1 = id) = true :=
    List.any_eq_true.mpr ⟨p0, hmem0, by simpa using hk0⟩
  unfold Storage.jsMapSet
  rw [if_pos hany]
  unfold Storage.jsMapGet
  rw [find?_map_invariant m (fun p => if p.1 = id then (id, v) else p) _
    (fun p => by by_cases hp : p.1 = id <;> simp [hp])]
  by_cases hk : k = id
  · subst hk
    rw [hp0]
    simp [hk0]
  · rw [if_neg hk]
    cases hf : m.find? (fun p => p.1 = k) with
    | none => rfl
    | some q =>
      have hq1 : q.1 = k := by simpa using List.find?_some hf
      simp [hq1, hk]

theorem jsMapSet_keys {β : Type} (m : Storage.JsMap β) (id : Nat) (v : β)
    (hany : m.any (fun p => p.1 = id) = true) :
    (Storage.jsMapSet m id v).map (fun p => p.1) = m.map (fun p => p.1) := by
  unfold Storage.jsMapSet
  rw [if_pos hany, List.map_map]
  congr 1
  funext p
  by_cases hp : p.1 = id <;> simp [hp]

theorem memInv_jsMapSet (s : MemState) (id : Nat)
    (c v : Storage.Consultation) (hinv : MemInv s)
    (hget : Storage.jsMapGet s.consultations id = some c)
    (hvid : v.id = c.id) (hvbook : v.bookingId = c.bookingId) :
    MemInv ⟨Storage.jsMapSet s.consultations id v,
            s.currentConsultationId⟩ := by
  obtain ⟨p0, hp0, hps, hk0, hmem0⟩ := jsMapGet_some_elim _ _ _ hget
  have hinvp0 := hinv.1 p0 hmem0
  have hcid : c.id = id := by rw [← hps, ← hinvp0.1, hk0]
  have hany : s.consultations.any (fun p => p.1 = id) = true :=
    List.any_eq_true.mpr ⟨p0, hmem0, by simpa using hk0⟩
  constructor
  · intro p hp
    unfold Storage.jsMapSet at hp
    rw [if_pos hany] at hp
    obtain ⟨q, hq, rfl⟩ := List.mem_map.mp hp
    have hinvq := hinv.1 q hq
    by_cases hq1 : q.1 = id
    · simp only [if_pos hq1]
      refine ⟨by simp [hvid, hcid], ?_, ?_⟩
      · rw [hvid, ← hps]
        exact hinvp0.2.1
      · rw [hvbook, hvid, ← hps]
        exact hinvp0.2.2
    · simp only [if_neg hq1]
      exact hinvq
  · simp only []
    rw [jsMapSet_keys _ _ _ hany]
    exact hinv.2

/-- C7: a consultation gets its booking id exactly once, at creation: the
created record's booking id is derived from the fresh id, is non-empty, and
differs from every booking id already in the store; creation re-establishes
the store invariant; the three `MemStorage` update operations return a
record with the looked-up record's booking id, change no stored booking id
at any key, and preserve the invariant; and the admin and owner PATCH
routes never change any row's booking id either. -/
theorem bookingId_unique_immutable (s : MemState) (hinv : MemInv s)
    (ins : Storage.InsertConsultation) (crNow : Int) (id : Nat)
    (sdt pi ps st : String) (dbc : List Consultation)
    (bAdmin : Routes.AdminConsultationPatch)
    (bOwner : Routes.OwnerConsultationPatch) (callerId rid oid : Nat) :
    ((MemStorage.createConsultation s ins crNow).2.bookingId =
        some (Storage.mkBookingId s.currentConsultationId) ∧
      Storage.mkBookingId s.currentConsultationId ≠ "" ∧
      (∀ p ∈ s.consultations,
        p.2.bookingId ≠ some (Storage.mkBookingId s.currentConsultationId)) ∧
      MemInv (MemStorage.createConsultation s ins crNow).1) ∧
    (∀ s' u, MemStorage.updateConsultationSchedule s id sdt = some (s', u) →
      (∃ c, Storage.jsMapGet s.consultations id = some c ∧
        u.bookingId = c.bookingId) ∧
      (∀ k, (Storage.jsMapGet s'.consultations k).map (fun r => r.bookingId) =
        (Storage.jsMapGet s.consultations k).map (fun r => r.bookingId)) ∧
      MemInv s') ∧
    (∀ s' u, MemStorage.updateConsultationPayment s id pi ps = some (s', u) →
      (∃ c, Storage.jsMapGet s.consultations id = some c ∧
        u.bookingId = c.bookingId) ∧
      (∀ k, (Storage.jsMapGet s'.consultations k).map (fun r => r.bookingId) =
        (Storage.jsMapGet s.consultations k).map (fun r => r.bookingId)) ∧
      MemInv s') ∧
    (∀ s' u, MemStorage.updateConsultationStatus s id st = some (s', u) →
      (∃ c, Storage.jsMapGet s.consultations id = some c ∧
        u.bookingId = c.bookingId) ∧
      (∀ k, (Storage.jsMapGet s'.consultations k).map (fun r => r.bookingId) =
        (Storage.jsMapGet s.consultations k).map (fun r => r.bookingId)) ∧
      MemInv s') ∧
    ((Routes.adminUpdateConsultation dbc rid bAdmin).1.map
        (fun r => (r.id, r.bookingId)) =
      dbc.map (fun r => (r.id, r.bookingId))) ∧
    ((Routes.ownerUpdateConsultation dbc callerId oid bOwner).1.map
        (fun r => (r.id, r.bookingId)) =
      dbc.map (fun r => (r.id, r.bookingId))) := by
  have hcreate1 : (MemStorage.createConsultation s ins crNow).1 =
      ⟨Storage.jsMapSet s.consultations s.currentConsultationId
          (MemStorage.createConsultation s ins crNow).2,
        s.currentConsultationId + 1⟩ := rfl
  have hcid : (MemStorage.createConsultation s ins crNow).2.id =
      s.currentConsultationId := rfl
  have hcbook : (MemStorage.createConsultation s ins crNow).2.bookingId =
      some (Storage.mkBookingId s.currentConsultationId) := rfl
  have hanyf : s.consultations.any
      (fun p => p.1 = s.currentConsultationId) = false := by
    rw [List.any_eq_false]
    intro p hp
    obtain ⟨hk, hlt, -⟩ := hinv.1 p hp
    simp only [decide_eq_true_eq]
    omega
  have hmemupd : ∀ (f : Storage.Consultation → Storage.Consultation),
      (∀ c, (f c).id = c.id) → (∀ c, (f c).bookingId = c.bookingId) →
      ∀ (c : Storage.Consultation),
        Storage.jsMapGet s.consultations id = some c →
      (∀ k, (Storage.jsMapGet
          (Storage.jsMapSet s.consultations id (f c)) k).map
            (fun r => r.bookingId) =
        (Storage.jsMapGet s.consultations k).map (fun r => r.bookingId)) ∧
      MemInv ⟨Storage.jsMapSet s.consultations id (f c),
               s.currentConsultationId⟩ := by
    intro f hfid hfbook c hget
    refine ⟨fun k => ?_, memInv_jsMapSet s id c (f c) hinv hget (hfid c)
      (hfbook c)⟩
    rw [jsMapGet_jsMapSet s.consultations id c (f c) hget k]
    by_cases hk : k = id
    · subst hk
      rw [if_pos rfl, hget]
      simp [hfbook c]
    · rw [if_neg hk]
  refine ⟨⟨hcbook, mkBookingId_ne_empty _, ?_, ?_⟩, ?_, ?_, ?_, ?_, ?_⟩
  · intro p hp hcontra
    obtain ⟨-, hlt, hbook⟩ := hinv.1 p hp
    rw [hbook] at hcontra
    have := mkBookingId_inj (Option.some.inj hcontra)
    omega
  · rw [hcreate1]
    have happend : Storage.jsMapSet s.consultations s.currentConsultationId
        (MemStorage.createConsultation s ins crNow).2 =
        s.consultations ++
          [(s.currentConsultationId,
            (MemStorage.createConsultation s ins crNow).2)] := by
      unfold Storage.jsMapSet
      rw [if_neg (by simp [hanyf])]
    rw [happend]
    constructor
    · intro p hp
      rcases List.mem_append.mp hp with h | h
      · obtain ⟨hk, hlt, hb⟩ := hinv.1 p h
        refine ⟨hk, ?_, hb⟩
        show p.2.id < s.currentConsultationId + 1
        omega
      · have hpe : p = (s.currentConsultationId,
            (MemStorage.createConsultation s ins crNow).2) := by simpa using h
        subst hpe
        exact ⟨hcid.symm, by simp [hcid], by rw [hcid]; exact hcbook⟩
    · rw [List.map_append]
      refine List.Nodup.append hinv.2 (by simp) ?_
      intro a ha hb
      simp at hb
      obtain ⟨p, hp, hpa⟩ := List.mem_map.mp ha
      obtain ⟨hk, hlt, -⟩ := hinv.1 p hp
      omega
  · intro s' u hop
    unfold MemStorage.updateConsultationSchedule at hop
    cases hget : Storage.jsMapGet s.consultations id with
    | none => rw [hget] at hop; simp at hop
    | some c =>
      rw [hget] at hop
      simp only [Option.some.injEq, Prod.mk.injEq] at hop
      obtain ⟨hA, hB⟩ := hop
      subst hA
      subst hB
      exact ⟨⟨c, rfl, rfl⟩,
        hmemupd (fun c => { c with scheduledDateTime := some sdt,
                                   status := "scheduled" })
          (fun _ => rfl) (fun _ => rfl) c hget⟩
  · intro s' u hop
    unfold MemStorage.updateConsultationPayment at hop
    cases hget : Storage.jsMapGet s.consultations id with
    | none => rw [hget] at hop; simp at hop
    | some c =>
      rw [hget] at hop
      simp only [Option.some.injEq, Prod.mk.injEq] at hop
      obtain ⟨hA, hB⟩ := hop
      subst hA
      subst hB
      exact ⟨⟨c, rfl, rfl⟩,
        hmemupd (fun c => { c with paymentIntentId := some pi,
                                   paymentStatus := some ps })
          (fun _ => rfl) (fun _ => rfl) c hget⟩
  · intro s' u hop
    unfold MemStorage.updateConsultationStatus at hop
    cases hget : Storage.jsMapGet s.consultations id with
    | none => rw [hget] at hop; simp at hop
    | some c =>
      rw [hget] at hop
      simp only [Option.some.injEq, Prod.mk.injEq] at hop
      obtain ⟨hA, hB⟩ := hop
      subst hA
      subst hB
      exact ⟨⟨c, rfl, rfl⟩,
        hmemupd (fun c => { c with status := st })
          (fun _ => rfl) (fun _ => rfl) c hget⟩
  · unfold Routes.adminUpdateConsultation
    split
    · rfl
    · rw [List.map_map]
      congr 1
      funext r
      by_cases hr : r.id = rid <;>
        simp [hr, Routes.applyAdminConsultationPatch]
  · unfold Routes.ownerUpdateConsultation
    split
    · rfl
    · split
      · rfl
      · split
        · rfl
        · rw [List.map_map]
          congr 1
          funext r
          by_cases hr : r.id = oid <;>
            simp [hr, Routes.applyOwnerConsultationPatch]

/-- Witness for C7: creation on the empty store assigns a booking id that
is non-empty and absent from the (empty) store, and the invariant holds
afterwards. -/
theorem bookingId_unique_immutable_witness :
    MemInv ⟨[], 1⟩ ∧
      ((MemStorage.createConsultation ⟨[], 1⟩ insertSample 0).2.bookingId =
          some (Storage.mkBookingId 1) ∧
        Storage.mkBookingId 1 ≠ "" ∧
        (∀ p ∈ ([] : Storage.JsMap Storage.Consultation),
          p.2.bookingId ≠ some (Storage.mkBookingId 1)) ∧
        MemInv (MemStorage.createConsultation ⟨[], 1⟩ insertSample 0).1) :=
  ⟨⟨by simp, by simp⟩,
   (bookingId_unique_immutable ⟨[], 1⟩ ⟨by simp, by simp⟩ insertSample 0 1
      "sdt" "pi" "paid" "confirmed" [] ⟨none, none, none⟩
      ⟨none, none, none, none, none⟩ 1 1 1).1⟩

/-- C9 counterexample: scheduling the same stored consultation,
`MemStorage` forces its status to "scheduled" while `DatabaseStorage`
writes only `scheduledDateTime` and leaves the status "pending" — the two
implementations do not produce equal results. -/
theorem storage_schedule_divergence :
    ((MemStorage.updateConsultationSchedule ⟨[(1, consultationStored)], 2⟩ 1
        "2025-01-05T10:00").map (fun r => r.2.status) = some "scheduled") ∧
    ((DatabaseStorage.updateConsultationSchedule [consultationStored] 1
        "2025-01-05T10:00").2.map (fun r => r.status) = some "pending") ∧
    ("scheduled" : String) ≠ "pending" :=
  ⟨rfl, rfl, by decide⟩

/-- C9 (amended): on corresponding stores and an existing id,
`updateConsultationPayment` and `updateConsultationStatus` produce equal
returned records and equal resulting stored state under `MemStorage` and
`DatabaseStorage`; `updateConsultationSchedule` does not — both set the
same `scheduledDateTime`, but `MemStorage` additionally forces
`status := "scheduled"` while `DatabaseStorage` leaves the status
unchanged. -/
theorem storage_equivalence_amended (s : MemState)
    (dbc : List Storage.Consultation) (id : Nat) (sdt pi ps st : String)
    (c : Storage.Consultation)
    (hkeys : ∀ p ∈ s.consultations, p.1 = p.2.id)
    (hrows : dbc = s.consultations.map (fun p => p.2))
    (hnodup : (s.consultations.map (fun p => p.1)).Nodup)
    (hfind : dbc.find? (fun r => r.id = id) = some c) :
    ((MemStorage.updateConsultationPayment s id pi ps).map (fun r => r.2) =
      (DatabaseStorage.updateConsultationPayment dbc id pi ps).2) ∧
    (∀ s' u, MemStorage.updateConsultationPayment s id pi ps =
        some (s', u) →
      s'.consultations.map (fun p => p.2) =
        (DatabaseStorage.updateConsultationPayment dbc id pi ps).1) ∧
    ((MemStorage.updateConsultationStatus s id st).map (fun r => r.2) =
      (DatabaseStorage.updateConsultationStatus dbc id st).2) ∧
    (∀ s' u, MemStorage.updateConsultationStatus s id st = some (s', u) →
      s'.consultations.map (fun p => p.2) =
        (DatabaseStorage.updateConsultationStatus dbc id st).1) ∧
    ((MemStorage.updateConsultationSchedule s id sdt).map (fun r => r.2) =
      some { c with scheduledDateTime := some sdt, status := "scheduled" }) ∧
    ((DatabaseStorage.updateConsultationSchedule dbc id sdt).2 =
      some { c with scheduledDateTime := some sdt }) := by
  have hget : Storage.jsMapGet s.consultations id = some c := by
    have hfind2 := hfind
    rw [hrows, List.find?_map] at hfind2
    unfold Storage.jsMapGet
    rw [find?_congr_mem s.consultations
      (q := fun p => decide (p.2.id = id)) (fun p hp => by rw [hkeys p hp])]
    exact hfind2
  obtain ⟨p0, hp0, hps0, hk0, hmem0⟩ := jsMapGet_some_elim _ _ _ hget
  have hany : s.consultations.any (fun p => p.1 = id) = true :=
    List.any_eq_true.mpr ⟨p0, hmem0, by simpa using hk0⟩
  have hstore : ∀ f : Storage.Consultation → Storage.Consultation,
      (Storage.jsMapSet s.consultations id (f c)).map (fun p => p.2) =
        dbc.map (fun r => if r.id = id then f r else r) := by
    intro f
    unfold Storage.jsMapSet
    rw [if_pos hany, hrows, List.map_map, List.map_map]
    refine List.map_congr_left ?_
    intro p hp
    by_cases hp1 : p.1 = id
    · have hpp0 : p = p0 :=
        List.inj_on_of_nodup_map hnodup hp hmem0 (by rw [hp1, hk0])
      subst hpp0
      have hpid : p.2.id = id := by rw [← hkeys p hp, hp1]
      have hcid : c.id = id := hps0 ▸ hpid
      simp [Function.comp, hp1, hpid, hps0, hcid]
    · have hpid : ¬ p.2.id = id := by rw [← hkeys p hp]; exact hp1
      simp [Function.comp, hp1, hpid]
  have hmempay : MemStorage.updateConsultationPayment s id pi ps =
      some (⟨Storage.jsMapSet s.consultations id
          { c with paymentIntentId := some pi, paymentStatus := some ps },
        s.currentConsultationId⟩,
        { c with paymentIntentId := some pi, paymentStatus := some ps }) := by
    unfold MemStorage.updateConsultationPayment
    rw [hget]
  have hmemst : MemStorage.updateConsultationStatus s id st =
      some (⟨Storage.jsMapSet s.consultations id { c with status := st },
        s.currentConsultationId⟩, { c with status := st }) := by
    unfold MemStorage.updateConsultationStatus
    rw [hget]
  have hmemsch : MemStorage.updateConsultationSchedule s id sdt =
      some (⟨Storage.jsMapSet s.consultations id
          { c with scheduledDateTime := some sdt, status := "scheduled" },
        s.currentConsultationId⟩,
        { c with scheduledDateTime := some sdt, status := "scheduled" }) := by
    unfold MemStorage.updateConsultationSchedule
    rw [hget]
  refine ⟨?_, ?_, ?_, ?_, ?_, ?_⟩
  · rw [hmempay]
    unfold DatabaseStorage.updateConsultationPayment
    rw [hfind]
    rfl
  · intro s' u hop
    rw [hmempay] at hop
    simp only [Option.some.injEq, Prod.mk.injEq] at hop
    obtain ⟨hA, -⟩ := hop
    subst hA
    unfold DatabaseStorage.updateConsultationPayment
    exact hstore (fun r =>
      { r with paymentIntentId := some pi, paymentStatus := some ps })
  · rw [hmemst]
    unfold DatabaseStorage.updateConsultationStatus
    rw [hfind]
    rfl
  · intro s' u hop
    rw [hmemst] at hop
    simp only [Option.some.injEq, Prod.mk.injEq] at hop
    obtain ⟨hA, -⟩ := hop
    subst hA
    unfold DatabaseStorage.updateConsultationStatus
    exact hstore (fun r => { r with status := st })
  · rw [hmemsch]
    rfl
  · unfold DatabaseStorage.updateConsultationSchedule
    rw [hfind]
    rfl

/-- Witness for C9 (amended): payment update on a concrete one-record pair
of corresponding stores returns the same record under both
implementations. -/
theorem storage_equivalence_amended_witness :
    ((∀ p ∈ ([(1, consultationStored)] :
        Storage.JsMap Storage.Consultation), p.1 = p.2.id) ∧
      [consultationStored] =
        ([(1, consultationStored)] :
          Storage.JsMap Storage.Consultation).map (fun p => p.2) ∧
      (([(1, consultationStored)] :
        Storage.JsMap Storage.Consultation).map (fun p => p.1)).Nodup ∧
      [consultationStored].find? (fun r => r.id = 1) =
        some consultationStored) ∧
    ((MemStorage.updateConsultationPayment ⟨[(1, consultationStored)], 2⟩ 1
        "pi_1" "paid").map (fun r => r.2) =
      (DatabaseStorage.updateConsultationPayment [consultationStored] 1
        "pi_1" "paid").2) :=
  ⟨⟨by simp [consultationStored], rfl, by simp,
    by simp [consultationStored]⟩,
   (storage_equivalence_amended ⟨[(1, consultationStored)], 2⟩
      [consultationStored] 1 "s" "pi_1" "paid" "done" consultationStored
      (by simp [consultationStored]) rfl (by simp)
      (by simp [consultationStored])).1⟩
